import Mathlib

set_option maxRecDepth 100000

/-
Verification development for the bb-rss repository.

The repository holds two variants of a single script that fetches JSON post
listings and writes an RSS 2.0 feed file:

  * src/generate-rss.js          — browser (Playwright) fetch variant; it
    parses the prior feed file, deduplicates fetched posts against it by
    guid and link, sorts descending by publish date and caps at 500 items.
  * src/unnamed/part_000         — direct HTTP fetch variant with a
    timeout/retry/backoff loop; it writes fetched posts directly.

Effectful primitives (network responses, JSON parsing by the runtime,
xml2js parsing, the clock and Date parsing) are modelled as oracle inputs;
every pure computation of the scripts (guid hashing with a full MD5
implementation, string escaping, merge/dedup, sorting, truncation, XML
serialization, retry classification) is embedded faithfully.

JavaScript notes reflected in the embedding:
  * A missing or empty-string field is falsy; both are modelled by the
    empty string, and the JS expression a || b by the function jsOr.
  * Array.prototype.sort with a consistent comparator is a stable sort,
    whose result is unique among stable sorts; it is modelled by
    List.insertionSort, which is stable and kernel-computable.
-/

namespace BbRss

/-- JS a || b for string-valued fields, with the empty string standing for
every falsy value (absent, null, empty). -/
def jsOr (a b : String) : String := if a = "" then b else a

/-- A raw post record as delivered by the JSON API; the scripts read the
fields title, excerpt, summary, url_path and first_published_at, each of
which may be absent (modelled by the empty string). -/
structure RawPost where
  title : String
  excerpt : String
  summary : String
  url_path : String
  first_published_at : String
deriving Repr, DecidableEq

/-- A serialized feed item: the record built per post by both scripts. -/
structure FeedItem where
  title : String
  link : String
  description : String
  pubDate : String
  guid : String
deriving Repr, DecidableEq

/-- Oracle for the runtime environment: the current time formatted by
Date.toUTCString, the formatting of a timestamp string by
new Date(s).toUTCString(), and the numeric value new Date(s).getTime()
used by sort comparators. -/
structure Ctx where
  nowUTC : String
  toUTC : String → String
  dateOf : String → Int

namespace MD5

/-- 32-bit truncating addition. -/
def add32 (a b : Nat) : Nat := (a + b) % 4294967296

/-- 32-bit bitwise complement (arguments are kept below 2^32). -/
def bnot32 (x : Nat) : Nat := 4294967295 - x

/-- 32-bit left rotation. -/
def rotl (x s : Nat) : Nat := (x * 2 ^ s) % 4294967296 + x / 2 ^ (32 - s)

def funF (b c d : Nat) : Nat := (b &&& c) ||| (bnot32 b &&& d)

def funG (b c d : Nat) : Nat := (d &&& b) ||| (bnot32 d &&& c)

def funH (b c d : Nat) : Nat := b ^^^ c ^^^ d

def funI (b c d : Nat) : Nat := c ^^^ (b ||| bnot32 d)

/-- The 64 MD5 sine-derived round constants. -/
def kTable : List Nat :=
  [0xd76aa478, 0xe8c7b756, 0x242070db, 0xc1bdceee,
   0xf57c0faf, 0x4787c62a, 0xa8304613, 0xfd469501,
   0x698098d8, 0x8b44f7af, 0xffff5bb1, 0x895cd7be,
   0x6b901122, 0xfd987193, 0xa679438e, 0x49b40821,
   0xf61e2562, 0xc040b340, 0x265e5a51, 0xe9b6c7aa,
   0xd62f105d, 0x02441453, 0xd8a1e681, 0xe7d3fbc8,
   0x21e1cde6, 0xc33707d6, 0xf4d50d87, 0x455a14ed,
   0xa9e3e905, 0xfcefa3f8, 0x676f02d9, 0x8d2a4c8a,
   0xfffa3942, 0x8771f681, 0x6d9d6122, 0xfde5380c,
   0xa4beea44, 0x4bdecfa9, 0xf6bb4b60, 0xbebfbc70,
   0x289b7ec6, 0xeaa127fa, 0xd4ef3085, 0x04881d05,
   0xd9d4d039, 0xe6db99e5, 0x1fa27cf8, 0xc4ac5665,
   0xf4292244, 0x432aff97, 0xab9423a7, 0xfc93a039,
   0x655b59c3, 0x8f0ccc92, 0xffeff47d, 0x85845dd1,
   0x6fa87e4f, 0xfe2ce6e0, 0xa3014314, 0x4e0811a1,
   0xf7537e82, 0xbd3af235, 0x2ad7d2bb, 0xeb86d391]

/-- The 64 MD5 per-round rotation amounts. -/
def sTable : List Nat :=
  [7, 12, 17, 22, 7, 12, 17, 22, 7, 12, 17, 22, 7, 12, 17, 22,
   5, 9, 14, 20, 5, 9, 14, 20, 5, 9, 14, 20, 5, 9, 14, 20,
   4, 11, 16, 23, 4, 11, 16, 23, 4, 11, 16, 23, 4, 11, 16, 23,
   6, 10, 15, 21, 6, 10, 15, 21, 6, 10, 15, 21, 6, 10, 15, 21]

/-- UTF-8 encoding of one character as byte values. -/
def utf8Char (c : Char) : List Nat :=
  let n := c.toNat
  if n < 128 then [n]
  else if n < 2048 then [192 + n / 64, 128 + n % 64]
  else if n < 65536 then [224 + n / 4096, 128 + n / 64 % 64, 128 + n % 64]
  else [240 + n / 262144, 128 + n / 4096 % 64, 128 + n / 64 % 64, 128 + n % 64]

/-- UTF-8 byte sequence of a string. -/
def strBytes (s : String) : List Nat := (s.data.map utf8Char).flatten

/-- k least-significant bytes of n, little-endian. -/
def leBytes : Nat → Nat → List Nat
  | 0, _ => []
  | k + 1, n => n % 256 :: leBytes k (n / 256)

/-- MD5 padding: append 0x80, zero-pad to 56 mod 64, then the 64-bit
little-endian bit length. -/
def padMsg (msg : List Nat) : List Nat :=
  let len := msg.length
  let z := (119 - len % 64) % 64
  msg ++ [128] ++ List.replicate z 0 ++ leBytes 8 (len * 8 % 18446744073709551616)

/-- Group bytes into little-endian 32-bit words. -/
def toWords : List Nat → List Nat
  | b0 :: b1 :: b2 :: b3 :: rest =>
      (b0 + 256 * b1 + 65536 * b2 + 16777216 * b3) :: toWords rest
  | _ => []

/-- Split a byte list into 64-byte blocks (fueled for structural recursion). -/
def blocksGo : Nat → List Nat → List (List Nat)
  | 0, _ => []
  | n + 1, bs => if bs.isEmpty then [] else bs.take 64 :: blocksGo n (bs.drop 64)

def blocksOf (bs : List Nat) : List (List Nat) := blocksGo bs.length bs

/-- The four MD5 working registers. -/
structure St where
  a : Nat
  b : Nat
  c : Nat
  d : Nat

/-- One of the 64 MD5 rounds on a 16-word block m. -/
def roundOp (m : List Nat) (st : St) (i : Nat) : St :=
  let fg : Nat × Nat :=
    if i < 16 then (funF st.b st.c st.d, i)
    else if i < 32 then (funG st.b st.c st.d, (5 * i + 1) % 16)
    else if i < 48 then (funH st.b st.c st.d, (3 * i + 5) % 16)
    else (funI st.b st.c st.d, 7 * i % 16)
  let tmp := add32 (add32 (add32 st.a fg.1) (kTable.getD i 0)) (m.getD fg.2 0)
  { a := st.d, d := st.c, c := st.b, b := add32 st.b (rotl tmp (sTable.getD i 0)) }

/-- Process one 64-byte block. -/
def processBlock (st : St) (block : List Nat) : St :=
  let m := toWords block
  let r := (List.range 64).foldl (roundOp m) st
  { a := add32 st.a r.a, b := add32 st.b r.b, c := add32 st.c r.c, d := add32 st.d r.d }

def initSt : St := ⟨0x67452301, 0xefcdab89, 0x98badcfe, 0x10325476⟩

def hexDigit (n : Nat) : Char := if n < 10 then Char.ofNat (48 + n) else Char.ofNat (87 + n)

def byteHex (b : Nat) : List Char := [hexDigit (b / 16), hexDigit (b % 16)]

/-- Lowercase hex MD5 digest of a string, as produced by
crypto.createHash('md5').update(str).digest('hex'). -/
def md5Hex (s : String) : String :=
  let st := (blocksOf (padMsg (strBytes s))).foldl processBlock initSt
  String.mk
    (((leBytes 4 st.a ++ leBytes 4 st.b ++ leBytes 4 st.c ++ leBytes 4 st.d).map byteHex).flatten)

end MD5

/-- A JSON document body as the scripts see it: the posts field when it is
present as an array, and the content.items field when present; either may
be absent (modelled by none). -/
structure RawData where
  posts : Option (List RawPost)
  contentItems : Option (List RawPost)
deriving Repr, DecidableEq

/-- Post-list extraction shared verbatim by both scripts:
(data.posts && Array.isArray(data.posts)) ? data.posts :
((data.content && data.content.items) || []). -/
def extractItems (d : RawData) : List RawPost :=
  match d.posts with
  | some ps => ps
  | none => d.contentItems.getD []

/-- One pass of the global regex alternation <!\[CDATA\[ | \]\]> with empty
replacement, as in description.replace in parseExistingFeed; fueled by the
input length so the recursion is structural. -/
def stripCdataGo : Nat → List Char → List Char
  | 0, cs => cs
  | _ + 1, [] => []
  | n + 1, c :: cs =>
    if ("<![CDATA[".data).isPrefixOf (c :: cs) then stripCdataGo n ((c :: cs).drop 9)
    else if ("]]>".data).isPrefixOf (c :: cs) then stripCdataGo n ((c :: cs).drop 3)
    else c :: stripCdataGo n cs

/-- s.replace(/<!\[CDATA\[|\]\]>/g, ''). -/
def stripCdata (s : String) : String := String.mk (stripCdataGo s.length s.data)

/-- String.prototype.trim: strip leading and trailing whitespace
(kernel-computable char-list implementation). -/
def jsTrim (s : String) : String :=
  String.mk (((s.data.dropWhile Char.isWhitespace).reverse.dropWhile Char.isWhitespace).reverse)

/-- String.prototype.startsWith (kernel-computable). -/
def jsStartsWith (s p : String) : Bool := p.data.isPrefixOf s.data

/-- String.prototype.toLowerCase (kernel-computable; the strings scanned
here are ASCII). -/
def jsToLower (s : String) : String := String.mk (s.data.map Char.toLower)

/-- Whether pat occurs as a substring, as String.prototype.includes
(kernel-computable). -/
def subOccurs (p : List Char) : List Char → Bool
  | [] => p.isPrefixOf []
  | c :: cs => p.isPrefixOf (c :: cs) || subOccurs p cs

/-- Case-sensitive substring test, as String.prototype.includes. -/
def containsSub (hay pat : String) : Bool := subOccurs pat.data hay.data

/-- The fixed channel header of the generated feed, identical in the two
scripts, with the build date inserted. -/
def rssHeader (nowUTC : String) : String :=
  "<?xml version=\"1.0\" encoding=\"UTF-8\"?>\n" ++
  "<rss version=\"2.0\" xmlns:atom=\"http://www.w3.org/2005/Atom\">\n" ++
  "  <channel>\n" ++
  "    <title>Bonikbarta Combined Feed</title>\n" ++
  "    <link>https://harmonious-froyo-665879.netlify.app/</link>\n" ++
  "    <atom:link href=\"https://harmonious-froyo-665879.netlify.app/feed.xml\" rel=\"self\" type=\"application/rss+xml\"/>\n" ++
  "    <description>Latest articles from Bonikbarta</description>\n" ++
  "    <language>bn</language>\n" ++
  "    <lastBuildDate>" ++ nowUTC ++ "</lastBuildDate>\n" ++
  "    <generator>GitHub Actions RSS Generator</generator>\n"

/-- One serialized item block, as emitted by both scripts. -/
def rssItemXml (item : FeedItem) : String :=
  "    <item>\n" ++
  "      <title>" ++ item.title ++ "</title>\n" ++
  "      <link>" ++ item.link ++ "</link>\n" ++
  "      <description><![CDATA[" ++ item.description ++ "]]></description>\n" ++
  "      <pubDate>" ++ item.pubDate ++ "</pubDate>\n" ++
  "      <guid isPermaLink=\"false\">" ++ item.guid ++ "</guid>\n" ++
  "    </item>\n"

/-- The HTML-entity escaping applied to titles:
.replace(/&/g,'&amp;').replace(/</g,'&lt;').replace(/>/g,'&gt;'). -/
def escTitle (s : String) : String :=
  ((s.replace "&" "&amp;").replace "<" "&lt;").replace ">" "&gt;"

/-- url_path.replace(/^\/home/, ""): strip one leading /home. -/
def stripHome (s : String) : String := if s.startsWith "/home" then s.drop 5 else s

/- Embedding of src/generate-rss.js, the Playwright fetch variant. -/
namespace Rss

def baseURL : String := "https://bonikbarta.com"

def maxItems : Nat := 500

/-- generateGUID (src/generate-rss.js, lines 49-52): the md5 hex digest of
(item.title||'')+(item.excerpt||item.summary||'')+(item.first_published_at||''). -/
def generateGUID (item : RawPost) : String :=
  MD5.md5Hex
    (jsOr item.title "" ++ jsOr item.excerpt (jsOr item.summary "") ++
      jsOr item.first_published_at "")

/-- itemToRSSItem (lines 54-64). -/
def itemToRSSItem (ctx : Ctx) (item : RawPost) : FeedItem :=
  let fullLink := stripHome (jsOr item.url_path "/")
  let articleUrl := baseURL ++ fullLink
  let pubDate :=
    if item.first_published_at = "" then ctx.nowUTC else ctx.toUTC item.first_published_at
  let title := escTitle (jsOr item.title "No title")
  let description := jsOr item.excerpt (jsOr item.summary "No description available")
  { title := title, link := articleUrl, description := description, pubDate := pubDate,
    guid := generateGUID item }

/-- generateRSS (lines 66-91): header, one block per item, closing tags. -/
def generateRSS (ctx : Ctx) (items : List FeedItem) : String :=
  rssHeader ctx.nowUTC ++ String.join (items.map rssItemXml) ++ "  </channel>\n</rss>"

/-- The guid node of a parsed item as xml2js delivers it: an attributed
node (so item.guid[0]._ holds the text) or a bare string. -/
inductive XmlGuid
  | withAttr (text : String)
  | plain (text : String)
deriving Repr, DecidableEq

/-- One item element of the parsed prior feed document. -/
structure XmlItem where
  title : String
  link : String
  description : String
  pubDate : String
  guid : XmlGuid
deriving Repr, DecidableEq

/-- Oracle for the state of the prior feed file as seen through fs and
xml2js: missing file, xml2js parse failure, a document without
rss/channel/item, or a document with a parsed item list. -/
inductive PriorFeed
  | absent
  | parseError
  | invalidStructure
  | doc (items : List XmlItem)
deriving Repr, DecidableEq

def guidText : XmlGuid → String
  | .withAttr t => t
  | .plain t => t

/-- parseExistingFeed (lines 16-46): absent file, parse error and invalid
structure all yield the empty item list; otherwise each parsed item is
mapped to a FeedItem, stripping CDATA markers from the description and
reading the guid text. -/
def parseExistingFeed : PriorFeed → List FeedItem
  | .absent => []
  | .parseError => []
  | .invalidStructure => []
  | .doc items =>
      items.map fun it =>
        { title := it.title, link := it.link, description := stripCdata it.description,
          pubDate := it.pubDate, guid := guidText it.guid }

/-- Oracle for one page.evaluate fetch of an endpoint: the evaluate call
threw, or it returned a body text whose JSON.parse result is parsed
(none when JSON.parse throws). -/
inductive FetchOutcome
  | thrown
  | response (body : String) (parsed : Option RawData)
deriving Repr, DecidableEq

/-- fetchJSONWithPlaywright (lines 94-130): null on a thrown error, on a
body not starting with a brace, on a JSON.parse failure, and on an empty
extracted post list; otherwise the posts. -/
def fetchJSONWithPlaywright : FetchOutcome → Option (List RawPost)
  | .thrown => none
  | .response body parsed =>
    if !(jsStartsWith (jsTrim body) "\x7b") then none
    else
      match parsed with
      | none => none
      | some d =>
        let items := extractItems d
        if items.isEmpty then none else some items

/-- The mutable state of the merge loop in main: the newItems array and the
two membership sets (modelled as lists used only through contains). -/
structure MergeAcc where
  newItems : List FeedItem
  guids : List String
  links : List String
deriving Repr, DecidableEq

/-- The body of the inner post loop (lines 154-163): build the item and
append it only when both its guid and its link are unseen. -/
def addPost (ctx : Ctx) (acc : MergeAcc) (post : RawPost) : MergeAcc :=
  let rssItem := itemToRSSItem ctx post
  if acc.guids.contains rssItem.guid || acc.links.contains rssItem.link then acc
  else
    { newItems := acc.newItems ++ [rssItem], guids := rssItem.guid :: acc.guids,
      links := rssItem.link :: acc.links }

/-- One iteration of the url loop (lines 147-167): a null fetch result is
skipped, otherwise every returned post runs through addPost. -/
def processFetch (ctx : Ctx) (acc : MergeAcc) (out : FetchOutcome) : MergeAcc :=
  match fetchJSONWithPlaywright out with
  | none => acc
  | some posts => posts.foldl (addPost ctx) acc

/-- The sets seeded from the existing items (lines 142-143). -/
def initAcc (existing : List FeedItem) : MergeAcc :=
  { newItems := [], guids := existing.map (·.guid), links := existing.map (·.link) }

def collectNew (ctx : Ctx) (existing : List FeedItem) (outs : List FetchOutcome) : MergeAcc :=
  outs.foldl (processFetch ctx) (initAcc existing)

/-- The comparator (a, b) => new Date(b.pubDate) - new Date(a.pubDate) as
the relation accepted between consecutive items: descending date. -/
def descPubDate (ctx : Ctx) (a b : FeedItem) : Prop :=
  ctx.dateOf b.pubDate ≤ ctx.dateOf a.pubDate

instance (ctx : Ctx) : DecidableRel (descPubDate ctx) := fun _ _ => Int.decLe _ _

instance (ctx : Ctx) : IsTotal FeedItem (descPubDate ctx) :=
  ⟨fun a b => le_total (ctx.dateOf b.pubDate) (ctx.dateOf a.pubDate)⟩

instance (ctx : Ctx) : IsTrans FeedItem (descPubDate ctx) :=
  ⟨fun _ _ _ hab hbc => le_trans hbc hab⟩

/-- allItems.sort (line 177): Array.prototype.sort is stable, and a stable
sort with a consistent comparator has a unique result, so the kernel
computable stable insertionSort models it exactly. -/
def sortDesc (ctx : Ctx) (items : List FeedItem) : List FeedItem :=
  items.insertionSort (descPubDate ctx)

/-- allItems = [...newItems, ...existingItems] (line 174). -/
def allItems (ctx : Ctx) (existing : List FeedItem) (outs : List FetchOutcome) :
    List FeedItem :=
  (collectNew ctx existing outs).newItems ++ existing

/-- Lines 174-180 of main: merge, sort descending, keep the first 500. -/
def pipeline (ctx : Ctx) (existing : List FeedItem) (outs : List FetchOutcome) :
    List FeedItem :=
  (sortDesc ctx (allItems ctx existing outs)).take maxItems

/-- The final item list of one run of main. -/
def mainFinal (ctx : Ctx) (prior : PriorFeed) (outs : List FetchOutcome) : List FeedItem :=
  pipeline ctx (parseExistingFeed prior) outs

/-- The feed text written to feed.xml (lines 182-183). -/
def mainOutput (ctx : Ctx) (prior : PriorFeed) (outs : List FetchOutcome) : String :=
  generateRSS ctx (mainFinal ctx prior outs)

/-- The console.warn messages of the url loop: one per endpoint whose fetch
returned null (line 150). -/
def mainWarnings (outs : List FetchOutcome) : List String :=
  outs.filterMap fun o =>
    if fetchJSONWithPlaywright o = none then some "Skipping url due to error" else none

end Rss

/- Embedding of src/unnamed/part_000, the direct HTTP fetch variant. -/
namespace RssDirect

def baseURL : String := "https://bonikbarta.com"

/-- generateGUID (src/unnamed/part_000, lines 70-73): the md5 hex digest of
(item.title||'')+(item.excerpt||'')+(item.first_published_at||''); note the
absence of the summary fallback present in the other variant. -/
def generateGUID (item : RawPost) : String :=
  MD5.md5Hex (jsOr item.title "" ++ jsOr item.excerpt "" ++ jsOr item.first_published_at "")

def timeoutMs : Nat := 10000

def maxRetries : Nat := 3

deriving instance DecidableEq for Except

/-- Oracle for one fetch attempt: the fetch call threw (msg is the error
message, an abort-on-timeout surfacing as an AbortError message), or a
response arrived with a status, content-type, body text, and the outcome
of JSON.parse on that body (error holds the exception message). -/
inductive AttemptOutcome
  | thrown (msg : String)
  | response (status : Nat) (contentType : String) (body : String)
      (parsed : Except String RawData)
deriving Repr, DecidableEq

/-- The alternatives of the case-insensitive transient-error regex
/timeout|AbortError|ECONNRESET|ENOTFOUND|status=5|HTML response/i,
lowered since the test lowers the message. -/
def transientPats : List String :=
  ["timeout", "aborterror", "econnreset", "enotfound", "status=5", "html response"]

/-- The transient test of fetchJsonSafe (line 43). -/
def isTransient (msg : String) : Bool :=
  transientPats.any fun p => containsSub (jsToLower msg) p

/-- The body of one attempt (lines 30-39): a thrown fetch is an error; an
html content-type or a body starting with < raises
"HTML response status=..."; otherwise the JSON.parse outcome is returned. -/
def attemptResult : AttemptOutcome → Except String RawData
  | .thrown m => .error m
  | .response status ct body parsed =>
    if containsSub ct "html" || jsStartsWith (jsTrim body) "<" then
      .error ("HTML response status=" ++ toString status)
    else parsed

/-- The observable trace of fetchJsonSafe: its result, the number of
attempts it issued, and the backoff delays it slept between attempts. -/
structure FetchTrace where
  result : Except String RawData
  attemptsUsed : Nat
  delays : List Nat
deriving Repr, DecidableEq

/-- The retry loop of fetchJsonSafe (lines 26-47), attempt number i, fueled
by the remaining iterations: on failure the loop continues only when the
error is transient and i is not the last attempt, sleeping 200 * 2^i
first; otherwise it breaks and the last error is thrown. -/
def fetchGo (o : Nat → AttemptOutcome) : Nat → Nat → FetchTrace
  | _, 0 => { result := Except.error "", attemptsUsed := 0, delays := [] }
  | i, fuel + 1 =>
    match attemptResult (o i) with
    | .ok d => { result := .ok d, attemptsUsed := i, delays := [] }
    | .error e =>
      if isTransient e && i != maxRetries then
        let t := fetchGo o (i + 1) fuel
        { result := t.result, attemptsUsed := t.attemptsUsed, delays := 200 * 2 ^ i :: t.delays }
      else { result := .error e, attemptsUsed := i, delays := [] }

/-- fetchJsonSafe (lines 14-49): the loop runs attempts 1..maxRetries. -/
def fetchJsonSafe (o : Nat → AttemptOutcome) : FetchTrace := fetchGo o 1 maxRetries

/-- The contribution of one url in fetchAll (lines 53-64): the extracted
items on success, nothing when the thrown error is caught and logged. -/
def fetchContribution (o : Nat → AttemptOutcome) : List RawPost :=
  match (fetchJsonSafe o).result with
  | .ok d => extractItems d
  | .error _ => []

/-- The comparator (a, b) => new Date(b.first_published_at) -
new Date(a.first_published_at) as the accepted descending relation. -/
def descFpa (ctx : Ctx) (a b : RawPost) : Prop :=
  ctx.dateOf b.first_published_at ≤ ctx.dateOf a.first_published_at

instance (ctx : Ctx) : DecidableRel (descFpa ctx) := fun _ _ => Int.decLe _ _

instance (ctx : Ctx) : IsTotal RawPost (descFpa ctx) :=
  ⟨fun a b => le_total (ctx.dateOf b.first_published_at) (ctx.dateOf a.first_published_at)⟩

instance (ctx : Ctx) : IsTrans RawPost (descFpa ctx) :=
  ⟨fun _ _ _ hab hbc => le_trans hbc hab⟩

/-- The concatenation built by the url loop of fetchAll, one oracle per
url, a caught failure contributing nothing. -/
def fetchAllRaw (oracles : List (Nat → AttemptOutcome)) : List RawPost :=
  (oracles.map fetchContribution).flatten

/-- fetchAll (lines 51-67): concatenate and sort descending by
first_published_at (stable sort, modelled as in the other variant). -/
def fetchAll (ctx : Ctx) (oracles : List (Nat → AttemptOutcome)) : List RawPost :=
  (fetchAllRaw oracles).insertionSort (descFpa ctx)

/-- The per-item fields computed inside the forEach of generateRSS
(lines 88-94). -/
def rssItemFields (ctx : Ctx) (item : RawPost) : FeedItem :=
  let fullLink := stripHome (jsOr item.url_path "/")
  let articleUrl := baseURL ++ fullLink
  let pubDate :=
    if item.first_published_at = "" then ctx.nowUTC else ctx.toUTC item.first_published_at
  let title := escTitle (jsOr item.title "No title")
  let description := jsOr item.excerpt (jsOr item.summary "No description available")
  { title := title, link := articleUrl, description := description, pubDate := pubDate,
    guid := generateGUID item }

/-- generateRSS (lines 75-107). -/
def generateRSS (ctx : Ctx) (posts : List RawPost) : String :=
  rssHeader ctx.nowUTC ++
    String.join (posts.map fun p => rssItemXml (rssItemFields ctx p)) ++
    "  </channel>\n</rss>"

/-- items.slice(0, 500) as written by main (line 114). -/
def mainPosts (ctx : Ctx) (oracles : List (Nat → AttemptOutcome)) : List RawPost :=
  (fetchAll ctx oracles).take 500

/-- The feed text written to feed.xml by main. -/
def mainOutput (ctx : Ctx) (oracles : List (Nat → AttemptOutcome)) : String :=
  generateRSS ctx (mainPosts ctx oracles)

/-- The console.warn of main (line 113), emitted when no posts arrived. -/
def mainWarnings (ctx : Ctx) (oracles : List (Nat → AttemptOutcome)) : List String :=
  if (fetchAll ctx oracles).length = 0 then ["No articles fetched"] else []

end RssDirect

/-- One pass decoding of the XML entities that title escaping can produce
(amp, lt, gt), as xml2js applies when reading text content back; fueled by
the input length so the recursion is structural. -/
def xmlDecodeGo : Nat → List Char → List Char
  | 0, cs => cs
  | _ + 1, [] => []
  | n + 1, c :: cs =>
    if ("&amp;".data).isPrefixOf (c :: cs) then '&' :: xmlDecodeGo n ((c :: cs).drop 5)
    else if ("&lt;".data).isPrefixOf (c :: cs) then '<' :: xmlDecodeGo n ((c :: cs).drop 4)
    else if ("&gt;".data).isPrefixOf (c :: cs) then '>' :: xmlDecodeGo n ((c :: cs).drop 4)
    else c :: xmlDecodeGo n cs

def xmlDecode (s : String) : String := String.mk (xmlDecodeGo s.length s.data)

/-- The guid hash input named by the specification: the concatenation of
title, excerpt-or-summary, and first_published_at. Stated from the spec
words, for comparison against the two source variants. -/
def claimedGuidInput (item : RawPost) : String :=
  jsOr item.title "" ++ jsOr item.excerpt (jsOr item.summary "") ++
    jsOr item.first_published_at ""

namespace Rss

/-- What parseExistingFeed recovers from one item block that generateRSS
wrote: xml2js decodes the escaped title and unwraps the CDATA description,
the code then strips (here absent) CDATA markers, and the attributed guid
node yields its text unchanged. -/
def parsedBack (it : FeedItem) : FeedItem :=
  { title := xmlDecode it.title, link := it.link, description := stripCdata it.description,
    pubDate := it.pubDate, guid := it.guid }

/-- The parsed state of a feed file that generateRSS wrote for the item
list its: with zero items the channel has no item key, so the structure
check fails; otherwise each block parses to an attributed-guid item. -/
def xmlOfGenerated (its : List FeedItem) : PriorFeed :=
  if its.isEmpty then PriorFeed.invalidStructure
  else
    PriorFeed.doc (its.map fun it =>
      { title := xmlDecode it.title, link := it.link, description := it.description,
        pubDate := it.pubDate, guid := XmlGuid.withAttr it.guid })

/-- The playwright variant issues exactly one page.evaluate call per url;
over the same attempt-indexed oracle shape as the direct variant, the
fetch consults only attempt 1. -/
def fetchOnce (o : Nat → FetchOutcome) : Option (List RawPost) :=
  fetchJSONWithPlaywright (o 1)

/-- Invariant of the merge loop: the guids and links of the accumulated
new items together with the existing ones stay duplicate-free, and the
membership sets cover them. -/
def MergeInv (existingG existingL : List String) (acc : MergeAcc) : Prop :=
  (acc.newItems.map FeedItem.guid ++ existingG).Nodup ∧
  (acc.newItems.map FeedItem.link ++ existingL).Nodup ∧
  (∀ g ∈ acc.newItems.map FeedItem.guid ++ existingG, g ∈ acc.guids) ∧
  (∀ l ∈ acc.newItems.map FeedItem.link ++ existingL, l ∈ acc.links)

/-- A guid the membership set already holds: the merge loop can never
accept another item carrying it. -/
def GuidBlocked (g : String) (acc : MergeAcc) : Prop :=
  g ∈ acc.guids ∧ g ∉ acc.newItems.map FeedItem.guid

end Rss

/- Concrete fixtures for witnesses and counterexamples. -/

/-- A concrete runtime oracle: dates compare by the length of the date
string, so shorter strings are older. -/
def ctx0 : Ctx :=
  { nowUTC := "Thu, 01 Jan 1970 00:00:00 GMT", toUTC := fun s => s,
    dateOf := fun s => (s.length : Int) }

/-- A concrete raw post. -/
def post1 : RawPost :=
  { title := "Title one", excerpt := "Excerpt one", summary := "", url_path := "/home/a",
    first_published_at := "2024-01-02" }

/-- A post whose excerpt is absent but whose summary is set: the two guid
variants treat it differently. -/
def postSummaryOnly : RawPost :=
  { title := "", excerpt := "", summary := "x", url_path := "", first_published_at := "" }

/-- A parsed prior-feed item with guid g and link l. -/
def xmlItem1 : Rss.XmlItem :=
  { title := "t", link := "l", description := "d", pubDate := "ppp",
    guid := Rss.XmlGuid.plain "g" }

/-- A second parsed prior-feed item with a distinct guid and link. -/
def xmlItem2 : Rss.XmlItem :=
  { title := "u", link := "m", description := "e", pubDate := "p",
    guid := Rss.XmlGuid.plain "h" }

/-- A JSON document that parses fine but carries an empty post array. -/
def emptyPosts : RawData := { posts := some [], contentItems := none }

/-- A newer feed item (its pubDate string is longer, hence later under
ctx0's length-based date oracle). -/
def feedItemA : FeedItem :=
  { title := "A", link := "la", description := "da", pubDate := "ppp", guid := "ga" }

/-- An older feed item. -/
def feedItemB : FeedItem :=
  { title := "B", link := "lb", description := "db", pubDate := "p", guid := "gb" }

/-- An original post as fetched in a prior run. -/
def origPost : RawPost :=
  { title := "T", excerpt := "E", summary := "", url_path := "/p",
    first_published_at := "D" }

/-- A later fetch of the same content: the excerpt moved to the summary
field, so excerpt-or-summary is unchanged. -/
def reproPost : RawPost :=
  { title := "T", excerpt := "", summary := "E", url_path := "/p",
    first_published_at := "D" }

/-- A prior feed holding exactly the item generated from origPost. -/
def priorC7 : Rss.PriorFeed :=
  Rss.PriorFeed.doc
    [{ title := "T", link := "https://bonikbarta.com/p", description := "E", pubDate := "D",
       guid := Rss.XmlGuid.withAttr (Rss.generateGUID origPost) }]

/-- A fetch round whose single endpoint redelivers the reproduced post. -/
def outsC7 : List Rss.FetchOutcome :=
  [Rss.FetchOutcome.response "\x7b" (some { posts := some [reproPost], contentItems := none })]

/-- A per-attempt oracle whose every attempt times out. -/
def oracleTimeout : Nat → RssDirect.AttemptOutcome :=
  fun _ => RssDirect.AttemptOutcome.thrown "The operation was aborted AbortError"

/-- A playwright attempt oracle that throws on the first attempt but would
deliver a good JSON response on any later one. -/
def pwOracle : Nat → Rss.FetchOutcome :=
  fun i =>
    if i = 1 then Rss.FetchOutcome.thrown
    else Rss.FetchOutcome.response "\x7b" (some { posts := some [post1], contentItems := none })

end BbRss

/-- The MD5 implementation agrees with the published digest of the empty string. -/
theorem BbRss.MD5.md5Hex_empty : BbRss.MD5.md5Hex "" = "d41d8cd98f00b204e9800998ecf8427e" := by
  decide

/-- The MD5 implementation agrees with the published digest of "abc". -/
theorem BbRss.MD5.md5Hex_abc : BbRss.MD5.md5Hex "abc" = "900150983cd24fb0d6963f7d28e17f72" := by
  decide

namespace BbRss

/-- C5: for every run of either variant, the serialized output holds at
most the configured maximum of 500 items, whatever was fetched and
whatever the prior feed contained. -/
theorem C5_item_cap (ctx : Ctx) (prior : Rss.PriorFeed) (outs : List Rss.FetchOutcome)
    (oracles : List (Nat → RssDirect.AttemptOutcome)) :
    (Rss.mainFinal ctx prior outs).length ≤ Rss.maxItems ∧
    (RssDirect.mainPosts ctx oracles).length ≤ 500 :=
  ⟨List.length_take_le _ _, List.length_take_le _ _⟩

/-- C6: in both variants the serialized items appear in descending order
of publish date: in the playwright variant by the date value of each
item's pubDate, in the direct variant by each post's publish timestamp. -/
theorem C6_sorted_desc (ctx : Ctx) (prior : Rss.PriorFeed) (outs : List Rss.FetchOutcome)
    (oracles : List (Nat → RssDirect.AttemptOutcome)) :
    List.Sorted (Rss.descPubDate ctx) (Rss.mainFinal ctx prior outs) ∧
    List.Sorted (RssDirect.descFpa ctx) (RssDirect.mainPosts ctx oracles) := by
  constructor
  · exact List.Pairwise.sublist (List.take_sublist _ _)
      (List.sorted_insertionSort (Rss.descPubDate ctx) _)
  · exact List.Pairwise.sublist (List.take_sublist _ _)
      (List.sorted_insertionSort (RssDirect.descFpa ctx) _)

/-- C8: a missing, unparseable or structurally invalid prior feed file is
treated as an empty item list, and the run proceeds exactly as a run over
empty history: never fatal. -/
theorem C8_bad_prior_empty (ctx : Ctx) (outs : List Rss.FetchOutcome) (prior : Rss.PriorFeed)
    (hbad : prior = Rss.PriorFeed.absent ∨ prior = Rss.PriorFeed.parseError ∨
      prior = Rss.PriorFeed.invalidStructure) :
    Rss.parseExistingFeed prior = [] ∧
    Rss.mainOutput ctx prior outs = Rss.generateRSS ctx (Rss.pipeline ctx [] outs) := by
  rcases hbad with h | h | h <;> subst h <;> exact ⟨rfl, rfl⟩

/-- Witness for C8 at the parse-error state with no fetched input. -/
theorem C8_witness :
    Rss.parseExistingFeed Rss.PriorFeed.parseError = [] ∧
    Rss.mainOutput ctx0 Rss.PriorFeed.parseError [] =
      Rss.generateRSS ctx0 (Rss.pipeline ctx0 [] []) :=
  C8_bad_prior_empty ctx0 [] Rss.PriorFeed.parseError (Or.inr (Or.inl rfl))

/-- C10: in the playwright variant a response that parses to zero posts
makes fetchJSONWithPlaywright return null, and the merge step cannot
distinguish such an endpoint from one whose fetch threw. -/
theorem C10_empty_eq_error (body : String) (d : RawData) (h : extractItems d = []) :
    Rss.fetchJSONWithPlaywright (Rss.FetchOutcome.response body (some d)) = none ∧
    ∀ (ctx : Ctx) (acc : Rss.MergeAcc),
      Rss.processFetch ctx acc (Rss.FetchOutcome.response body (some d)) =
        Rss.processFetch ctx acc Rss.FetchOutcome.thrown := by
  have h1 : Rss.fetchJSONWithPlaywright (Rss.FetchOutcome.response body (some d)) = none := by
    unfold Rss.fetchJSONWithPlaywright
    by_cases hb : jsStartsWith (jsTrim body) "\x7b"
    · simp [hb, h]
    · simp [hb]
  have h2 : ∀ (ctx : Ctx) (acc : Rss.MergeAcc),
      Rss.processFetch ctx acc (Rss.FetchOutcome.response body (some d)) = acc := by
    intro ctx acc
    unfold Rss.processFetch
    rw [h1]
  exact ⟨h1, fun ctx acc => (h2 ctx acc).trans rfl⟩

/-- Witness for C10: a concrete valid-JSON body with an empty posts array. -/
theorem C10_witness :
    Rss.fetchJSONWithPlaywright (Rss.FetchOutcome.response "\x7b" (some emptyPosts)) = none ∧
    Rss.processFetch ctx0 (Rss.initAcc []) (Rss.FetchOutcome.response "\x7b" (some emptyPosts)) =
      Rss.processFetch ctx0 (Rss.initAcc []) Rss.FetchOutcome.thrown := by
  have h := C10_empty_eq_error "\x7b" emptyPosts rfl
  exact ⟨h.1, h.2 ctx0 (Rss.initAcc [])⟩

end BbRss

namespace BbRss

theorem jsOr_empty_right (s : String) : jsOr s "" = s := by
  unfold jsOr
  split <;> simp_all

/-- Adding one fresh element to the front block of a nodup split list. -/
theorem mergeSide_step (M G gs : List String) (x : String)
    (h1 : (M ++ G).Nodup) (h3 : ∀ g ∈ M ++ G, g ∈ gs) (hx : x ∉ gs) :
    (M ++ [x] ++ G).Nodup ∧ ∀ g ∈ M ++ [x] ++ G, g ∈ x :: gs := by
  have hperm : (M ++ [x] ++ G).Perm (x :: (M ++ G)) :=
    (List.perm_append_singleton x M).append_right G
  have hx' : x ∉ M ++ G := fun hmem => hx (h3 x hmem)
  constructor
  · exact hperm.nodup_iff.mpr (List.nodup_cons.mpr ⟨hx', h1⟩)
  · intro g hg
    rcases List.mem_cons.mp (hperm.mem_iff.mp hg) with h | h
    · exact List.mem_cons.mpr (Or.inl h)
    · exact List.mem_cons.mpr (Or.inr (h3 g h))

/-- One step of the merge loop preserves the dedup invariant. -/
theorem addPost_inv (ctx : Ctx) (G L : List String) (acc : Rss.MergeAcc) (post : RawPost)
    (h : Rss.MergeInv G L acc) : Rss.MergeInv G L (Rss.addPost ctx acc post) := by
  obtain ⟨h1, h2, h3, h4⟩ := h
  simp only [Rss.addPost]
  split
  · exact ⟨h1, h2, h3, h4⟩
  · rename_i hguard
    have hfresh : (Rss.itemToRSSItem ctx post).guid ∉ acc.guids ∧
        (Rss.itemToRSSItem ctx post).link ∉ acc.links := by
      simpa using hguard
    have hg := mergeSide_step (acc.newItems.map FeedItem.guid) G acc.guids
      (Rss.itemToRSSItem ctx post).guid h1 h3 hfresh.1
    have hl := mergeSide_step (acc.newItems.map FeedItem.link) L acc.links
      (Rss.itemToRSSItem ctx post).link h2 h4 hfresh.2
    refine ⟨?_, ?_, ?_, ?_⟩
    · simpa [List.map_append] using hg.1
    · simpa [List.map_append] using hl.1
    · intro g hgmem
      exact hg.2 g (by simpa [List.map_append] using hgmem)
    · intro l hlmem
      exact hl.2 l (by simpa [List.map_append] using hlmem)

theorem foldl_addPost_inv (ctx : Ctx) (G L : List String) (posts : List RawPost)
    (acc : Rss.MergeAcc) (h : Rss.MergeInv G L acc) :
    Rss.MergeInv G L (posts.foldl (Rss.addPost ctx) acc) := by
  induction posts generalizing acc with
  | nil => exact h
  | cons p ps ih => exact ih _ (addPost_inv ctx G L acc p h)

theorem processFetch_inv (ctx : Ctx) (G L : List String) (acc : Rss.MergeAcc)
    (out : Rss.FetchOutcome) (h : Rss.MergeInv G L acc) :
    Rss.MergeInv G L (Rss.processFetch ctx acc out) := by
  unfold Rss.processFetch
  cases Rss.fetchJSONWithPlaywright out with
  | none => exact h
  | some posts => exact foldl_addPost_inv ctx G L posts acc h

theorem collectNew_inv (ctx : Ctx) (existing : List FeedItem) (outs : List Rss.FetchOutcome)
    (hg : (existing.map FeedItem.guid).Nodup) (hl : (existing.map FeedItem.link).Nodup) :
    Rss.MergeInv (existing.map FeedItem.guid) (existing.map FeedItem.link)
      (Rss.collectNew ctx existing outs) := by
  have h0 : Rss.MergeInv (existing.map FeedItem.guid) (existing.map FeedItem.link)
      (Rss.initAcc existing) := by
    refine ⟨by simpa using hg, by simpa using hl, ?_, ?_⟩
    · intro g hgmem
      simpa [Rss.initAcc] using hgmem
    · intro l hlmem
      simpa [Rss.initAcc] using hlmem
  unfold Rss.collectNew
  generalize Rss.initAcc existing = acc at h0 ⊢
  induction outs generalizing acc with
  | nil => exact h0
  | cons o os ih => exact ih _ (processFetch_inv ctx _ _ acc o h0)

/-- C1 amended: in the playwright variant, a fetched item is added only
when both its guid and its link are absent from the prior items and from
the already accepted new items; hence whenever the parsed prior feed
itself contains no two items with equal guid or equal link, neither does
the final serialized item list. (The direct-fetch variant applies no
deduplication at all.) -/
theorem C1_dedup_preserved (ctx : Ctx) (prior : Rss.PriorFeed) (outs : List Rss.FetchOutcome)
    (hg : ((Rss.parseExistingFeed prior).map FeedItem.guid).Nodup)
    (hl : ((Rss.parseExistingFeed prior).map FeedItem.link).Nodup) :
    ((Rss.mainFinal ctx prior outs).map FeedItem.guid).Nodup ∧
    ((Rss.mainFinal ctx prior outs).map FeedItem.link).Nodup := by
  obtain ⟨h1, h2, _, _⟩ := collectNew_inv ctx (Rss.parseExistingFeed prior) outs hg hl
  have hallg : ((Rss.allItems ctx (Rss.parseExistingFeed prior) outs).map FeedItem.guid).Nodup := by
    simpa [Rss.allItems, List.map_append] using h1
  have halll : ((Rss.allItems ctx (Rss.parseExistingFeed prior) outs).map FeedItem.link).Nodup := by
    simpa [Rss.allItems, List.map_append] using h2
  have hpg : ((Rss.sortDesc ctx (Rss.allItems ctx (Rss.parseExistingFeed prior) outs)).map
      FeedItem.guid).Nodup :=
    (((List.perm_insertionSort _ _).map FeedItem.guid).nodup_iff).mpr hallg
  have hpl : ((Rss.sortDesc ctx (Rss.allItems ctx (Rss.parseExistingFeed prior) outs)).map
      FeedItem.link).Nodup :=
    (((List.perm_insertionSort _ _).map FeedItem.link).nodup_iff).mpr halll
  exact ⟨List.Nodup.sublist (List.Sublist.map _ (List.take_sublist _ _)) hpg,
    List.Nodup.sublist (List.Sublist.map _ (List.take_sublist _ _)) hpl⟩

/-- C1 counterexample: a prior feed file whose parsed items already repeat
a guid and link (nothing in parseExistingFeed prevents this) flows into
the output unchanged, so the final serialized list holds two items with
equal guid, refuting the unconditional claim. -/
theorem C1_counterexample :
    ¬ ((Rss.mainFinal ctx0 (Rss.PriorFeed.doc [xmlItem1, xmlItem1]) []).map
      FeedItem.guid).Nodup := by
  decide

/-- Witness for C1: a duplicate-free prior feed and no fetched input. -/
theorem C1_witness :
    ((Rss.mainFinal ctx0 (Rss.PriorFeed.doc [xmlItem1, xmlItem2]) []).map FeedItem.guid).Nodup ∧
    ((Rss.mainFinal ctx0 (Rss.PriorFeed.doc [xmlItem1, xmlItem2]) []).map FeedItem.link).Nodup :=
  C1_dedup_preserved ctx0 (Rss.PriorFeed.doc [xmlItem1, xmlItem2]) [] (by decide) (by decide)

end BbRss

namespace BbRss

/-- C2: parsing a previously generated feed (its items are descending and
at most 500, since the generator sorted and truncated them) and re-running
the pipeline with no new fetched input reproduces the item list: the same
guids in the same order, and the same pubDates; only the build-date header
of the serialization can differ. -/
theorem C2_round_trip (ctx : Ctx) (its : List FeedItem)
    (hs : List.Sorted (Rss.descPubDate ctx) its)
    (hlen : its.length ≤ Rss.maxItems) :
    (Rss.mainFinal ctx (Rss.xmlOfGenerated its) []).map FeedItem.guid =
      its.map FeedItem.guid ∧
    (Rss.mainFinal ctx (Rss.xmlOfGenerated its) []).map FeedItem.pubDate =
      its.map FeedItem.pubDate := by
  by_cases hne : its.isEmpty
  · have h0 : its = [] := List.isEmpty_iff.mp hne
    subst h0
    exact ⟨rfl, rfl⟩
  · have hparse : Rss.parseExistingFeed (Rss.xmlOfGenerated its) = its.map Rss.parsedBack := by
      unfold Rss.xmlOfGenerated
      rw [if_neg (by simpa using hne)]
      simp only [Rss.parseExistingFeed, List.map_map]
      exact List.map_congr_left fun it _ => rfl
    have hsorted : List.Sorted (Rss.descPubDate ctx) (its.map Rss.parsedBack) := by
      refine List.Pairwise.map Rss.parsedBack ?_ hs
      intro a b hab
      exact hab
    have hsort_eq : Rss.sortDesc ctx (its.map Rss.parsedBack) = its.map Rss.parsedBack :=
      List.Sorted.insertionSort_eq hsorted
    have htake : (its.map Rss.parsedBack).take Rss.maxItems = its.map Rss.parsedBack :=
      List.take_of_length_le (by simpa using hlen)
    have hfinal : Rss.mainFinal ctx (Rss.xmlOfGenerated its) [] = its.map Rss.parsedBack := by
      unfold Rss.mainFinal Rss.pipeline
      rw [hparse]
      show (Rss.sortDesc ctx (its.map Rss.parsedBack)).take Rss.maxItems = its.map Rss.parsedBack
      rw [hsort_eq]
      exact htake
    rw [hfinal]
    constructor
    · rw [List.map_map]
      exact List.map_congr_left fun it _ => rfl
    · rw [List.map_map]
      exact List.map_congr_left fun it _ => rfl

/-- Witness for C2 on a two-item generated feed. -/
theorem C2_witness :
    (Rss.mainFinal ctx0 (Rss.xmlOfGenerated [feedItemA, feedItemB]) []).map FeedItem.guid =
      [feedItemA, feedItemB].map FeedItem.guid ∧
    (Rss.mainFinal ctx0 (Rss.xmlOfGenerated [feedItemA, feedItemB]) []).map FeedItem.pubDate =
      [feedItemA, feedItemB].map FeedItem.pubDate :=
  C2_round_trip ctx0 [feedItemA, feedItemB] (by decide) (by decide)

end BbRss

namespace BbRss

/-- The playwright-variant guid hash input in closed form. -/
theorem Rss_generateGUID_eq (p : RawPost) :
    Rss.generateGUID p =
      MD5.md5Hex (p.title ++ jsOr p.excerpt p.summary ++ p.first_published_at) := by
  unfold Rss.generateGUID
  simp only [jsOr_empty_right]

/-- The direct-variant guid hash input in closed form: the summary field
never enters the hash. -/
theorem RssDirect_generateGUID_eq (p : RawPost) :
    RssDirect.generateGUID p = MD5.md5Hex (p.title ++ p.excerpt ++ p.first_published_at) := by
  unfold RssDirect.generateGUID
  simp only [jsOr_empty_right]

/-- C3 amended: the playwright variant hashes title, excerpt-or-summary
and first_published_at, as the claim says; the direct variant hashes
title, excerpt and first_published_at, never consulting summary; each
variant is deterministic on the fields it hashes. -/
theorem C3_guid_hash (p q : RawPost) :
    Rss.generateGUID p = MD5.md5Hex (claimedGuidInput p) ∧
    RssDirect.generateGUID p =
      MD5.md5Hex (jsOr p.title "" ++ jsOr p.excerpt "" ++ jsOr p.first_published_at "") ∧
    (p.title = q.title → jsOr p.excerpt p.summary = jsOr q.excerpt q.summary →
      p.first_published_at = q.first_published_at →
      Rss.generateGUID p = Rss.generateGUID q) ∧
    (p.title = q.title → p.excerpt = q.excerpt → p.first_published_at = q.first_published_at →
      RssDirect.generateGUID p = RssDirect.generateGUID q) := by
  refine ⟨rfl, rfl, ?_, ?_⟩
  · intro ht he hf
    rw [Rss_generateGUID_eq, Rss_generateGUID_eq, ht, he, hf]
  · intro ht he hf
    rw [RssDirect_generateGUID_eq, RssDirect_generateGUID_eq, ht, he, hf]

/-- C3 counterexample: for a post whose excerpt is absent and whose
summary is set, the direct variant's generateGUID is not the hash of the
claimed concatenation title + excerpt-or-summary + first_published_at:
the computed digest is md5 of the empty string, the claimed one is md5 of
the summary text. -/
theorem C3_counterexample :
    RssDirect.generateGUID postSummaryOnly ≠ MD5.md5Hex (claimedGuidInput postSummaryOnly) := by
  decide

/-- Witness for C3: two posts carrying the same content with the excerpt
moved to the summary field receive the same guid in the playwright
variant. -/
theorem C3_witness : Rss.generateGUID origPost = Rss.generateGUID reproPost := by
  have h := C3_guid_hash origPost reproPost
  exact h.2.2.1 rfl (by decide) rfl

end BbRss

namespace BbRss

/-- Full characterization of the retry loop: at most maxRetries attempts
starting at attempt i, every attempt before the last failed transiently,
the result is the outcome of the last attempt issued, and the backoff
delays are 200 * 2 ^ a for each non-final failed attempt a. -/
theorem fetchGo_spec (o : Nat → RssDirect.AttemptOutcome) :
    ∀ fuel i, i + fuel = RssDirect.maxRetries + 1 → 1 ≤ i → i ≤ RssDirect.maxRetries →
    (RssDirect.fetchGo o i fuel).attemptsUsed ≤ RssDirect.maxRetries ∧
    i ≤ (RssDirect.fetchGo o i fuel).attemptsUsed ∧
    (RssDirect.fetchGo o i fuel).result =
      RssDirect.attemptResult (o (RssDirect.fetchGo o i fuel).attemptsUsed) ∧
    (∀ j, i ≤ j → j < (RssDirect.fetchGo o i fuel).attemptsUsed →
      ∃ e, RssDirect.attemptResult (o j) = Except.error e ∧ RssDirect.isTransient e = true) ∧
    (RssDirect.fetchGo o i fuel).delays =
      (List.range ((RssDirect.fetchGo o i fuel).attemptsUsed - i)).map
        (fun k => 200 * 2 ^ (k + i)) := by
  have hm : RssDirect.maxRetries = 3 := rfl
  intro fuel
  induction fuel with
  | zero =>
      intro i hinv hi1 hi2
      rw [hm] at hinv hi2
      omega
  | succ f ih =>
      intro i hinv hi1 hi2
      cases hres : RssDirect.attemptResult (o i) with
      | ok d =>
          have hstep : RssDirect.fetchGo o i (f + 1) =
              { result := Except.ok d, attemptsUsed := i, delays := [] } := by
            simp [RssDirect.fetchGo, hres]
          rw [hstep]
          dsimp only
          refine ⟨hi2, le_refl i, hres.symm, ?_, by simp⟩
          intro j hj1 hj2
          omega
      | error e =>
          by_cases hc : (RssDirect.isTransient e && (i != RssDirect.maxRetries)) = true
          · have hstep : RssDirect.fetchGo o i (f + 1) =
                { result := (RssDirect.fetchGo o (i + 1) f).result,
                  attemptsUsed := (RssDirect.fetchGo o (i + 1) f).attemptsUsed,
                  delays := 200 * 2 ^ i :: (RssDirect.fetchGo o (i + 1) f).delays } := by
              simp only [RssDirect.fetchGo, hres, hc, if_true]
            have htr : RssDirect.isTransient e = true := ((Bool.and_eq_true _ _).mp hc).1
            have hne : i ≠ RssDirect.maxRetries :=
              bne_iff_ne.mp ((Bool.and_eq_true _ _).mp hc).2
            rw [hm] at hne
            obtain ⟨ha1, ha2, ha3, ha4, ha5⟩ :=
              ih (i + 1) (by rw [hm] at hinv ⊢; omega) (by omega)
                (by rw [hm] at hi2 ⊢; omega)
            rw [hstep]
            dsimp only
            refine ⟨ha1, by omega, ha3, ?_, ?_⟩
            · intro j hj1 hj2
              rcases Nat.eq_or_lt_of_le hj1 with hj | hj
              · subst hj
                exact ⟨e, hres, htr⟩
              · exact ha4 j hj hj2
            · have hused : i + 1 ≤ (RssDirect.fetchGo o (i + 1) f).attemptsUsed := ha2
              have hsub : (RssDirect.fetchGo o (i + 1) f).attemptsUsed - i =
                  ((RssDirect.fetchGo o (i + 1) f).attemptsUsed - (i + 1)) + 1 := by omega
              rw [ha5, hsub, List.range_succ_eq_map, List.map_cons, List.map_map]
              refine congrArg₂ List.cons (by simp) ?_
              refine List.map_congr_left fun k _ => ?_
              have hexp : Nat.succ k + i = k + (i + 1) := by omega
              simp [Function.comp, hexp]
          · have hstep : RssDirect.fetchGo o i (f + 1) =
                { result := Except.error e, attemptsUsed := i, delays := [] } := by
              simp only [RssDirect.fetchGo, hres]
              rw [if_neg hc]
            rw [hstep]
            dsimp only
            refine ⟨hi2, le_refl i, hres.symm, ?_, by simp⟩
            intro j hj1 hj2
            omega

end BbRss

namespace BbRss

/-- C4 amended: in the direct-fetch variant each endpoint is fetched by an
HTTP GET with fixed timeout 10000 ms and at most maxRetries = 3 attempts;
the loop continues past an attempt only when its failure is transient by
the classification regex, sleeping exponentially growing delays 200 * 2^a;
non-transient failures (and exhaustion) end the loop at once; and a failed
endpoint contributes nothing while the remaining endpoints are still
processed. The playwright variant, by contrast, issues a single attempt
per endpoint (see the counterexample). -/
theorem C4_retry_policy (o oth : Nat → RssDirect.AttemptOutcome)
    (os : List (Nat → RssDirect.AttemptOutcome)) :
    1 ≤ (RssDirect.fetchJsonSafe o).attemptsUsed ∧
    (RssDirect.fetchJsonSafe o).attemptsUsed ≤ RssDirect.maxRetries ∧
    (RssDirect.fetchJsonSafe o).result =
      RssDirect.attemptResult (o (RssDirect.fetchJsonSafe o).attemptsUsed) ∧
    (∀ j, 1 ≤ j → j < (RssDirect.fetchJsonSafe o).attemptsUsed →
      ∃ e, RssDirect.attemptResult (o j) = Except.error e ∧
        RssDirect.isTransient e = true) ∧
    (RssDirect.fetchJsonSafe o).delays =
      (List.range ((RssDirect.fetchJsonSafe o).attemptsUsed - 1)).map
        (fun k => 200 * 2 ^ (k + 1)) ∧
    (∀ e, (RssDirect.fetchJsonSafe oth).result = Except.error e →
      RssDirect.fetchAllRaw (oth :: os) = RssDirect.fetchAllRaw os) := by
  obtain ⟨h1, h2, h3, h4, h5⟩ :=
    fetchGo_spec o RssDirect.maxRetries 1 (by omega) (le_refl 1) (by decide)
  refine ⟨h2, h1, h3, h4, h5, ?_⟩
  intro e he
  have hcontrib : RssDirect.fetchContribution oth = [] := by
    unfold RssDirect.fetchContribution
    rw [he]
  simp [RssDirect.fetchAllRaw, hcontrib]

/-- C4 counterexample: in the playwright variant a transiently failing
first attempt is never retried: even though the very next attempt would
deliver a good JSON response with one post, the endpoint yields null. -/
theorem C4_counterexample :
    Rss.fetchOnce pwOracle = none ∧
    Rss.fetchJSONWithPlaywright (pwOracle 2) = some [post1] := by
  constructor
  · rfl
  · decide

/-- Witness for C4: an endpoint timing out on every attempt is retried
with the exponential backoff schedule and then skipped, leaving the
remaining (here: no) endpoints untouched. -/
theorem C4_witness :
    (RssDirect.fetchJsonSafe oracleTimeout).attemptsUsed ≤ RssDirect.maxRetries ∧
    RssDirect.fetchAllRaw [oracleTimeout] = RssDirect.fetchAllRaw [] := by
  have h := C4_retry_policy oracleTimeout oracleTimeout []
  exact ⟨h.2.1, h.2.2.2.2.2 "The operation was aborted AbortError" (by decide)⟩

end BbRss

namespace BbRss

/-- A guid already in the membership set stays blocked across one
iteration of the merge loop. -/
theorem addPost_blocked (ctx : Ctx) (g : String) (acc : Rss.MergeAcc) (post : RawPost)
    (h : Rss.GuidBlocked g acc) : Rss.GuidBlocked g (Rss.addPost ctx acc post) := by
  obtain ⟨h1, h2⟩ := h
  simp only [Rss.addPost]
  split
  · exact ⟨h1, h2⟩
  · rename_i hguard
    have hng : (Rss.itemToRSSItem ctx post).guid ∉ acc.guids :=
      (show (Rss.itemToRSSItem ctx post).guid ∉ acc.guids ∧
        (Rss.itemToRSSItem ctx post).link ∉ acc.links by simpa using hguard).1
    refine ⟨List.mem_cons_of_mem _ h1, ?_⟩
    simp only [List.map_append, List.map_cons, List.map_nil]
    intro hmem
    rcases List.mem_append.mp hmem with hmm | hmm
    · exact h2 hmm
    · have heq : g = (Rss.itemToRSSItem ctx post).guid := by simpa using hmm
      exact hng (heq ▸ h1)

theorem foldl_addPost_blocked (ctx : Ctx) (g : String) (posts : List RawPost)
    (acc : Rss.MergeAcc) (h : Rss.GuidBlocked g acc) :
    Rss.GuidBlocked g (posts.foldl (Rss.addPost ctx) acc) := by
  induction posts generalizing acc with
  | nil => exact h
  | cons p ps ih => exact ih _ (addPost_blocked ctx g acc p h)

theorem processFetch_blocked (ctx : Ctx) (g : String) (acc : Rss.MergeAcc)
    (out : Rss.FetchOutcome) (h : Rss.GuidBlocked g acc) :
    Rss.GuidBlocked g (Rss.processFetch ctx acc out) := by
  unfold Rss.processFetch
  cases Rss.fetchJSONWithPlaywright out with
  | none => exact h
  | some posts => exact foldl_addPost_blocked ctx g posts acc h

/-- A guid of an existing item never enters the newItems list. -/
theorem collectNew_blocked (ctx : Ctx) (existing : List FeedItem)
    (outs : List Rss.FetchOutcome) (g : String) (hmem : g ∈ existing.map FeedItem.guid) :
    Rss.GuidBlocked g (Rss.collectNew ctx existing outs) := by
  have h0 : Rss.GuidBlocked g (Rss.initAcc existing) :=
    ⟨by simpa [Rss.initAcc] using hmem, by simp [Rss.initAcc]⟩
  unfold Rss.collectNew
  generalize Rss.initAcc existing = acc at h0 ⊢
  induction outs generalizing acc with
  | nil => exact h0
  | cons o os ih => exact ih _ (processFetch_blocked ctx g acc o h0)

/-- C7: when the prior feed holds exactly one item with the guid computed
from a post's content and a fetch redelivers that content unchanged (same
title, same excerpt-or-summary, same first_published_at), the recomputed
guid equals the stored one, the merged list still holds that guid exactly
once, and the truncated serialized list holds it at most once — never
twice. -/
theorem C7_reproduced_once (ctx : Ctx) (prior : Rss.PriorFeed) (outs : List Rss.FetchOutcome)
    (orig repro : RawPost)
    (ht : repro.title = orig.title)
    (he : jsOr repro.excerpt repro.summary = jsOr orig.excerpt orig.summary)
    (hf : repro.first_published_at = orig.first_published_at)
    (hcount : ((Rss.parseExistingFeed prior).map FeedItem.guid).count
      (Rss.generateGUID orig) = 1) :
    Rss.generateGUID repro = Rss.generateGUID orig ∧
    ((Rss.allItems ctx (Rss.parseExistingFeed prior) outs).map FeedItem.guid).count
      (Rss.generateGUID orig) = 1 ∧
    ((Rss.mainFinal ctx prior outs).map FeedItem.guid).count (Rss.generateGUID orig) ≤ 1 := by
  have hguid : Rss.generateGUID repro = Rss.generateGUID orig := by
    rw [Rss_generateGUID_eq, Rss_generateGUID_eq, ht, he, hf]
  have hmem : Rss.generateGUID orig ∈ (Rss.parseExistingFeed prior).map FeedItem.guid :=
    List.count_pos_iff.mp (by omega)
  obtain ⟨_, hnot⟩ := collectNew_blocked ctx (Rss.parseExistingFeed prior) outs _ hmem
  have hzero : ((Rss.collectNew ctx (Rss.parseExistingFeed prior) outs).newItems.map
      FeedItem.guid).count (Rss.generateGUID orig) = 0 := List.count_eq_zero.mpr hnot
  have hall : ((Rss.allItems ctx (Rss.parseExistingFeed prior) outs).map FeedItem.guid).count
      (Rss.generateGUID orig) = 1 := by
    simp [Rss.allItems, List.count_append, hzero, hcount]
  refine ⟨hguid, hall, ?_⟩
  have hpc : ((Rss.sortDesc ctx (Rss.allItems ctx (Rss.parseExistingFeed prior) outs)).map
      FeedItem.guid).count (Rss.generateGUID orig) = 1 := by
    unfold Rss.sortDesc
    rw [((List.perm_insertionSort _ _).map FeedItem.guid).count_eq, hall]
  calc ((Rss.mainFinal ctx prior outs).map FeedItem.guid).count (Rss.generateGUID orig)
      ≤ ((Rss.sortDesc ctx (Rss.allItems ctx (Rss.parseExistingFeed prior) outs)).map
          FeedItem.guid).count (Rss.generateGUID orig) :=
        List.Sublist.count_le (List.Sublist.map _ (List.take_sublist _ _)) _
    _ = 1 := hpc

/-- Witness for C7: the prior feed holds the item of origPost; a fetch
redelivers the content with the excerpt moved into the summary field. -/
theorem C7_witness :
    Rss.generateGUID reproPost = Rss.generateGUID origPost ∧
    ((Rss.allItems ctx0 (Rss.parseExistingFeed priorC7) outsC7).map FeedItem.guid).count
      (Rss.generateGUID origPost) = 1 ∧
    ((Rss.mainFinal ctx0 priorC7 outsC7).map FeedItem.guid).count
      (Rss.generateGUID origPost) ≤ 1 :=
  C7_reproduced_once ctx0 priorC7 outsC7 origPost reproPost rfl (by decide) rfl (by decide)

end BbRss

namespace BbRss

/-- When every fetch returned null, the merge loop accepts nothing. -/
theorem collectNew_of_none (ctx : Ctx) (existing : List FeedItem)
    (outs : List Rss.FetchOutcome)
    (h : ∀ o ∈ outs, Rss.fetchJSONWithPlaywright o = none) :
    Rss.collectNew ctx existing outs = Rss.initAcc existing := by
  unfold Rss.collectNew
  induction outs with
  | nil => rfl
  | cons o os ih =>
      rw [List.foldl_cons]
      have hstep : Rss.processFetch ctx (Rss.initAcc existing) o = Rss.initAcc existing := by
        unfold Rss.processFetch
        rw [h o (List.mem_cons_self o os)]
      rw [hstep]
      exact ih fun o2 ho2 => h o2 (List.mem_cons_of_mem _ ho2)

/-- Serializing zero items yields exactly the channel header and the
closing tags: a well-formed feed with no item blocks. -/
theorem generateRSS_nil (ctx : Ctx) :
    Rss.generateRSS ctx [] = rssHeader ctx.nowUTC ++ "  </channel>\n</rss>" := by
  unfold Rss.generateRSS
  rw [List.map_nil, show String.join [] = "" from rfl, String.append_empty]

theorem RssDirect_generateRSS_nil (ctx : Ctx) :
    RssDirect.generateRSS ctx [] = rssHeader ctx.nowUTC ++ "  </channel>\n</rss>" := by
  unfold RssDirect.generateRSS
  rw [List.map_nil, show String.join [] = "" from rfl, String.append_empty]

/-- C9: with no prior feed and every fetch empty, both variants still
write a syntactically valid feed holding zero items (exactly the channel
header plus closing tags) and log a warning: per skipped endpoint in the
playwright variant, and the no-articles warning in the direct variant. -/
theorem C9_empty_feed (ctx : Ctx) (outs : List Rss.FetchOutcome)
    (oracles : List (Nat → RssDirect.AttemptOutcome))
    (hA : ∀ o ∈ outs, Rss.fetchJSONWithPlaywright o = none)
    (hAne : outs ≠ [])
    (hB : RssDirect.fetchAllRaw oracles = []) :
    Rss.mainFinal ctx Rss.PriorFeed.absent outs = [] ∧
    Rss.mainOutput ctx Rss.PriorFeed.absent outs =
      rssHeader ctx.nowUTC ++ "  </channel>\n</rss>" ∧
    Rss.mainWarnings outs ≠ [] ∧
    RssDirect.mainPosts ctx oracles = [] ∧
    RssDirect.mainOutput ctx oracles = rssHeader ctx.nowUTC ++ "  </channel>\n</rss>" ∧
    RssDirect.mainWarnings ctx oracles = ["No articles fetched"] := by
  have hfinal : Rss.mainFinal ctx Rss.PriorFeed.absent outs = [] := by
    show (Rss.sortDesc ctx ((Rss.collectNew ctx [] outs).newItems ++ [])).take Rss.maxItems = []
    rw [collectNew_of_none ctx [] outs hA]
    rfl
  have hout : Rss.mainOutput ctx Rss.PriorFeed.absent outs =
      rssHeader ctx.nowUTC ++ "  </channel>\n</rss>" := by
    show Rss.generateRSS ctx (Rss.mainFinal ctx Rss.PriorFeed.absent outs) = _
    rw [hfinal, generateRSS_nil]
  have hwarn : Rss.mainWarnings outs ≠ [] := by
    cases outs with
    | nil => exact absurd rfl hAne
    | cons o os =>
        simp [Rss.mainWarnings, List.filterMap_cons, hA o (List.mem_cons_self o os)]
  have hfetchB : RssDirect.fetchAll ctx oracles = [] := by
    unfold RssDirect.fetchAll
    rw [hB]
    rfl
  have hposts : RssDirect.mainPosts ctx oracles = [] := by
    show (RssDirect.fetchAll ctx oracles).take 500 = []
    rw [hfetchB]
    rfl
  have houtB : RssDirect.mainOutput ctx oracles =
      rssHeader ctx.nowUTC ++ "  </channel>\n</rss>" := by
    show RssDirect.generateRSS ctx (RssDirect.mainPosts ctx oracles) = _
    rw [hposts, RssDirect_generateRSS_nil]
  have hwarnB : RssDirect.mainWarnings ctx oracles = ["No articles fetched"] := by
    unfold RssDirect.mainWarnings
    rw [hfetchB]
    rfl
  exact ⟨hfinal, hout, hwarn, hposts, houtB, hwarnB⟩

/-- Witness for C9: one endpoint whose evaluate call threw, and no direct
endpoints. -/
theorem C9_witness :
    Rss.mainFinal ctx0 Rss.PriorFeed.absent [Rss.FetchOutcome.thrown] = [] ∧
    Rss.mainOutput ctx0 Rss.PriorFeed.absent [Rss.FetchOutcome.thrown] =
      rssHeader ctx0.nowUTC ++ "  </channel>\n</rss>" ∧
    Rss.mainWarnings [Rss.FetchOutcome.thrown] ≠ [] ∧
    RssDirect.mainPosts ctx0 [] = [] ∧
    RssDirect.mainOutput ctx0 [] = rssHeader ctx0.nowUTC ++ "  </channel>\n</rss>" ∧
    RssDirect.mainWarnings ctx0 [] = ["No articles fetched"] :=
  C9_empty_feed ctx0 [Rss.FetchOutcome.thrown] [] (by decide) (by decide) rfl

end BbRss
